import Mathlib

/-!
Shallow embedding of the utoipa-gen parameter clause parser
(`src/utoipa-gen/src/path/parameter.rs`) and doc-comment extractor
(`src/utoipa-gen/src/doc_comment.rs`), with theorems settling the frozen
claims about them.

Conventions of the embedding:
* A syn `ParseStream` is a list of already-lexed tokens (`Tok`).  The
  external sub-parsers that `Parameter::parse` delegates to (`LitStr`,
  `Ident`, `Token![=]`, `Token![,]`, boolean literals, and the external
  type-reference parser for `Type`) correspond to single tokens.
* `expect_or_abort`/`unwrap_or_abort`/`panic!` (proc-macro-error aborts)
  are modelled as `ParseError.abort`; a recoverable `syn::Error` returned
  with `return Err(...)` is `ParseError.err` carrying the message and,
  when the source attaches one, the offending token's span.
* Rust `String` values that are only carried (names, descriptions,
  messages) are Lean `String`; the doc-comment lines, which the code
  slices and measures, are `List Char`.
-/

/-- The external `Type` value (`crate::Type`) carried by a parameter:
an identifier plus array/option flags.  Opaque to the parser, which only
stores it and, in `to_tokens`, reads `is_array` and `is_option`.
(Lean reserves the name `Type`, hence the prime.) -/
structure Type' where
  ty : String
  is_array : Bool
  is_option : Bool
deriving DecidableEq, Repr

/-- `ParameterIn` from parameter.rs. -/
inductive ParameterIn where
  | Query
  | Path
  | Header
  | Cookie
deriving DecidableEq, Repr

/-- `impl Default for ParameterIn { fn default() -> Self { Self::Path } }` -/
def ParameterIn.default : ParameterIn := ParameterIn.Path

/-- `impl FromStr for ParameterIn`: maps the four location keywords,
any other string is a `syn::Error` (carried here as the message). -/
def ParameterIn.from_str (s : String) : Except String ParameterIn :=
  match s with
  | "path" => Except.ok ParameterIn.Path
  | "query" => Except.ok ParameterIn.Query
  | "header" => Except.ok ParameterIn.Header
  | "cookie" => Except.ok ParameterIn.Cookie
  | _ => Except.error ("unexpected str: " ++ s ++ ", expected one of: path, query, header, cookie")

/-- `Parameter` from parameter.rs. -/
structure Parameter where
  name : String
  parameter_in : ParameterIn
  deprecated : Bool
  description : Option String
  parameter_type : Option Type'
deriving DecidableEq, Repr

/-- `#[derive(Default)]` on `Parameter`: empty name, default location
(`Path`), not deprecated, no description, no type. -/
def Parameter.default : Parameter :=
  { name := ""
  , parameter_in := ParameterIn.default
  , deprecated := false
  , description := none
  , parameter_type := none }

/-- `Parameter::new(name, parameter_type, parameter_in)`: the direct
constructor, which always attaches a type and keeps the remaining fields
at their defaults. -/
def Parameter.new (name : String) (parameter_type : String) (parameter_in : ParameterIn) :
    Parameter :=
  { Parameter.default with
      name := name
    , parameter_type := some { ty := parameter_type, is_array := false, is_option := false }
    , parameter_in := parameter_in }

/-- `Parameter::update_parameter_type`. -/
def Parameter.update_parameter_type (p : Parameter) (ident : String) : Parameter :=
  { p with parameter_type := some { ty := ident, is_array := false, is_option := false } }

/-- One token of the clause stream.  `ident` carries the source span of the
identifier (modelled as a number) because the unknown-keyword error is
reported at that span.  `typeRef` stands for a token tree that the external
type-reference parser turns into a `Type'`. -/
inductive Tok where
  | litStr (s : String)
  | ident (name : String) (span : Nat)
  | eq
  | comma
  | boolLit (b : Bool)
  | typeRef (t : Type')
deriving DecidableEq, Repr

/-- Outcome classes of the parse: a recoverable `syn::Error` (message and,
when attached, the span it points at) versus a proc-macro-error abort /
panic, which terminates the whole generation pass. -/
inductive ParseError where
  | err (msg : String) (span : Option Nat)
  | abort (msg : String)
deriving DecidableEq, Repr

/-- `input.peek(LitStr)` -/
def peekLitStr : List Tok → Bool
  | Tok.litStr _ :: _ => true
  | _ => false

/-- `input.peek(Token![=])` -/
def peekEq : List Tok → Bool
  | Tok.eq :: _ => true
  | _ => false

/-- `input.peek(Token![,])` -/
def peekComma : List Tok → Bool
  | Tok.comma :: _ => true
  | _ => false

/-- Modelled from the spec: `parse_utils::parse_next` (the crate's
parse_utils module is not among the provided sources).  Per §4.2 the
optional type is "parsed only if a `=` token immediately follows the
name"; `parse_next` consumes the `=` and then runs the given parser, here
the external type-reference parser whose failure is an
`expect_or_abort`. -/
def parse_next_type : List Tok → Except ParseError (Type' × List Tok)
  | Tok.eq :: Tok.typeRef t :: rest => Except.ok (t, rest)
  | Tok.eq :: _ =>
      Except.error (ParseError.abort
        "unparseable parameter type expected: identifier or identifier within brackets")
  | _ => Except.error (ParseError.abort "expected =")

/-- Modelled from the spec: `parse_utils::parse_bool_or_true` (the crate's
parse_utils module is not among the provided sources).  Per §4.2,
`deprecated` alone yields `true`; "if followed by `= <bool_literal>`, the
boolean is used instead"; a `=` not followed by a boolean literal is a
fatal syntax error. -/
def parse_bool_or_true : List Tok → Except ParseError (Bool × List Tok)
  | Tok.eq :: Tok.boolLit b :: rest => Except.ok (b, rest)
  | Tok.eq :: _ => Except.error (ParseError.abort "expected boolean literal")
  | toks => Except.ok (true, toks)

/-- Modelled from the spec: the `description` arm delegates to
`parse_utils::parse_next` with a closure that parses a string literal via
`expect_or_abort`; per §4.2 "`description` requires `= <string_literal>`;
fatal syntax error if the `=` or literal is missing". -/
def parse_next_description : List Tok → Except ParseError (String × List Tok)
  | Tok.eq :: Tok.litStr s :: rest => Except.ok (s, rest)
  | Tok.eq :: _ =>
      Except.error (ParseError.abort "unparseable description, expected literal string")
  | _ => Except.error (ParseError.abort "expected =")

/-- One iteration body of the attribute loop of `Parameter::parse`, after
the identifier has been read: dispatch on its text, consuming any extra
tokens the attribute's value needs and updating the parameter. -/
def dispatchAttr (p : Parameter) (name : String) (span : Nat) (rest : List Tok) :
    Except ParseError (Parameter × List Tok) :=
  match name with
  | "path" | "query" | "header" | "cookie" =>
      match ParameterIn.from_str name with
      | Except.ok pin => Except.ok ({ p with parameter_in := pin }, rest)
      | Except.error e => Except.error (ParseError.abort e)
  | "deprecated" =>
      match parse_bool_or_true rest with
      | Except.ok (b, rest1) => Except.ok ({ p with deprecated := b }, rest1)
      | Except.error e => Except.error e
  | "description" =>
      match parse_next_description rest with
      | Except.ok (s, rest1) => Except.ok ({ p with description := some s }, rest1)
      | Except.error e => Except.error e
  | _ =>
      Except.error (ParseError.err
        ("unexpected identifier: " ++ name ++
          ", expected any of: path, query, header, cookie, deprecated, description")
        (some span))

theorem parse_bool_or_true_length {toks : List Tok} {b : Bool} {rest : List Tok}
    (h : parse_bool_or_true toks = Except.ok (b, rest)) : rest.length ≤ toks.length := by
  unfold parse_bool_or_true at h
  split at h <;> simp_all <;> omega

theorem parse_next_description_length {toks : List Tok} {s : String} {rest : List Tok}
    (h : parse_next_description toks = Except.ok (s, rest)) : rest.length ≤ toks.length := by
  unfold parse_next_description at h
  split at h <;> simp_all <;> omega

theorem dispatchAttr_length {p : Parameter} {name : String} {span : Nat} {rest : List Tok}
    {p' : Parameter} {rest1 : List Tok}
    (h : dispatchAttr p name span rest = Except.ok (p', rest1)) :
    rest1.length ≤ rest.length := by
  unfold dispatchAttr at h
  split at h
  case h_1 => split at h <;> simp_all
  case h_2 => split at h <;> simp_all
  case h_3 => split at h <;> simp_all
  case h_4 => split at h <;> simp_all
  case h_5 =>
    split at h
    · simp only [Except.ok.injEq, Prod.mk.injEq] at h
      obtain ⟨-, rfl⟩ := h
      exact parse_bool_or_true_length (by assumption)
    · simp at h
  case h_6 =>
    split at h
    · simp only [Except.ok.injEq, Prod.mk.injEq] at h
      obtain ⟨-, rfl⟩ := h
      exact parse_next_description_length (by assumption)
    · simp at h
  case h_7 => simp at h

/-- The optional-comma step at the bottom of the attribute loop:
`if input.peek(Token![,]) { input.parse::<Token![,]>().unwrap(); }`. -/
def consumeComma (toks : List Tok) : List Tok :=
  if peekComma toks then toks.tail else toks

theorem consumeComma_length (toks : List Tok) : (consumeComma toks).length ≤ toks.length := by
  unfold consumeComma
  split
  · exact Nat.le_trans (by simp [List.length_tail]) (Nat.le_refl _)
  · exact Nat.le_refl _

/-- The attribute loop of `Parameter::parse` (`loop { ... }`): read one
identifier (abort when the next token is not one), dispatch on it, consume
an optional trailing comma, stop when the stream is empty. -/
def parseAttrs (p : Parameter) (toks : List Tok) : Except ParseError Parameter :=
  match toks with
  | Tok.ident name span :: rest =>
      match h : dispatchAttr p name span rest with
      | Except.ok (p', rest1) =>
          if (consumeComma rest1).isEmpty then Except.ok p'
          else parseAttrs p' (consumeComma rest1)
      | Except.error e => Except.error e
  | _ => Except.error (ParseError.abort "unparseable Parameter, expected identifier")
termination_by toks.length
decreasing_by
  have h1 : rest1.length ≤ rest.length := dispatchAttr_length h
  have h2 : (consumeComma rest1).length ≤ rest1.length := consumeComma_length rest1
  simp only [List.length_cons]
  omega

/-- `Parameter::parse` (`impl Parse for Parameter`): parse the literal-string
name (recoverable error when absent), the optional `= type`, the mandatory
comma (abort when absent), then the attribute loop. -/
def Parameter.parse (toks : List Tok) : Except ParseError Parameter :=
  if peekLitStr toks then
    match toks with
    | Tok.litStr name :: rest0 =>
        let p := { Parameter.default with name := name }
        let step : Except ParseError (Parameter × List Tok) :=
          if peekEq rest0 then
            match parse_next_type rest0 with
            | Except.ok (t, rest1) => Except.ok ({ p with parameter_type := some t }, rest1)
            | Except.error e => Except.error e
          else Except.ok (p, rest0)
        match step with
        | Except.ok (p1, rest1) =>
            match rest1 with
            | Tok.comma :: rest2 => parseAttrs p1 rest2
            | _ => Except.error (ParseError.abort "expected comma after literal string")
        | Except.error e => Except.error e
    | _ => Except.error (ParseError.abort "unreachable: peek(LitStr) guaranteed a literal")
  else
    Except.error (ParseError.err "unparseable parameter name, expected literal string" none)

/-- One builder call emitted by `ToTokens for Parameter`.  The target
tokens `utoipa::openapi::path::Parameter::new(#name)`, `.with_in(...)`,
`.with_deprecated(...)`, `.with_description(...)`,
`.with_schema(#property)`, `.with_required(...)` are abstracted to their
call name and payload; a `Property` is its `(is_array, ty)` pair and the
`Deprecated`/`Required` wrapper enums are their underlying booleans. -/
inductive RenderCall where
  | new (name : String)
  | with_in (parameter_in : ParameterIn)
  | with_deprecated (deprecated : Bool)
  | with_description (description : String)
  | with_schema (is_array : Bool) (ty : String)
  | with_required (required : Bool)
deriving DecidableEq, Repr

/-- `Parameter::to_tokens`: sequential `tokens.extend(quote! { ... })`
calls, one list element per emitted builder call. -/
def Parameter.to_tokens (p : Parameter) : List RenderCall :=
  let t1 := [RenderCall.new p.name]
  let t2 := t1 ++ [RenderCall.with_in p.parameter_in]
  let t3 := t2 ++ [RenderCall.with_deprecated p.deprecated]
  let t4 := t3 ++
    (match p.description with
     | some d => [RenderCall.with_description d]
     | none => [])
  let t5 := t4 ++
    (match p.parameter_type with
     | some t => [RenderCall.with_schema t.is_array t.ty, RenderCall.with_required (! t.is_option)]
     | none => [])
  t5

/-! ## doc_comment.rs -/

/-- A Rust `String` in doc_comment.rs, viewed as its character sequence;
the code slices and measures these, so the list form is used. -/
abbrev Line := List Char

/-- Character list of a Lean string literal. -/
def str (s : String) : Line := s.data

/-- Rust `s.trim_end()`: drop trailing whitespace. -/
def trim_end (s : Line) : Line := (s.reverse.dropWhile Char.isWhitespace).reverse

/-- Rust `doc.truncate(doc.trim_end().len())` from `extract_doc_value`:
keep only the first `trim_end`-length characters. -/
def truncate_to_trim_end (s : Line) : Line := s.take (trim_end s).length

/-- Rust `s.trim()`: drop leading and trailing whitespace. -/
def trim (s : Line) : Line := (s.dropWhile Char.isWhitespace).reverse.dropWhile Char.isWhitespace |>.reverse

/-- Rust `s.trim_matches(p)` for a character predicate: drop matching
characters from both ends. -/
def trim_matches (p : Char → Bool) (s : Line) : Line :=
  (s.dropWhile p).reverse.dropWhile p |>.reverse

/-- Rust `s.trim_start_matches(c)`: drop every leading occurrence of `c`. -/
def trim_start_matches (c : Char) (s : Line) : Line := s.dropWhile (fun x => x = c)

/-- Rust `s.contains(pat)` for a string pattern: some suffix of `s` starts
with `pat`. -/
def containsSub (s pat : Line) : Bool := s.tails.any fun t => pat.isPrefixOf t

/-- Rust `s.replace(pat, rep)` for a non-empty string pattern: replace
each non-overlapping occurrence, scanning left to right.  (doc_comment.rs
only ever calls `replace` with non-empty patterns; the behaviour of this
model on an empty pattern is irrelevant to the embedding.)  The recursion
is driven by a character budget so that the definition is structural; the
budget `s.length` set by `replaceSub` is enough for the whole scan, since
each step consumes at least one character. -/
def replaceSubAux (pat rep : Line) : Nat → Line → Line
  | 0, s => s
  | _ + 1, [] => []
  | fuel + 1, c :: rest =>
      if pat.isPrefixOf (c :: rest) then
        rep ++ replaceSubAux pat rep fuel (rest.drop (pat.length - 1))
      else c :: replaceSubAux pat rep fuel rest

/-- Rust `s.replace(pat, rep)`; see `replaceSubAux`. -/
def replaceSub (pat rep : Line) (s : Line) : Line := replaceSubAux pat rep s.length s

/-- `std::path::PathBuf::join` as doc_comment.rs uses it: the argument
never starts with a separator (it has just been
`trim_start_matches('/')`-ed), so the join appends it after a separator
(none added when the base already ends in one or is empty). -/
def pathJoin (base frag : Line) : Line :=
  if base = [] then frag
  else if base.getLast? = some '/' then base ++ frag
  else base ++ '/' :: frag

/-- The environment marker `"CARGO_MANIFEST_DIR"`. -/
def cargoManifestDir : Line := str "CARGO_MANIFEST_DIR"

/-- The pattern `env!("CARGO_MANIFEST_DIR")` (double-quoted form). -/
def envDoubleQuotePat : Line := str "env!(\"CARGO_MANIFEST_DIR\")"

/-- The pattern with single quotes around the variable name, built from
character codes (39 is the single-quote character). -/
def envSingleQuotePat : Line :=
  str "env!(" ++ Char.ofNat 39 :: (cargoManifestDir ++ Char.ofNat 39 :: str ")")

/-- The `processed_path` local of `evaluate_manifest_dir_path`: erase
`concat!`, both quoting forms of `env!(CARGO_MANIFEST_DIR)`, and every
comma. -/
def processed_path (path_str : Line) : Line :=
  replaceSub (str ",") []
    (replaceSub envSingleQuotePat []
      (replaceSub envDoubleQuotePat []
        (replaceSub (str "concat!") [] path_str)))

/-- The `relative_path` local of `evaluate_manifest_dir_path`: trim
whitespace, then parentheses, then whitespace, then quotes. -/
def relative_path (path_str : Line) : Line :=
  trim_matches (fun c => c = '"')
    (trim (trim_matches (fun c => c = '(' || c = ')') (trim (processed_path path_str))))

/-- `CommentAttributes::evaluate_manifest_dir_path`, with the process
environment (`env`, the value of `CARGO_MANIFEST_DIR` if set) and the
filesystem (`fs`, contents of readable files) passed explicitly; `panic!`
becomes `Except.error` with the panic message's fixed prefix. -/
def evaluate_manifest_dir_path (fs : Line → Option Line) (env : Option Line)
    (path_str : Line) : Except Line Line :=
  match env with
  | none => Except.error (str "CARGO_MANIFEST_DIR not found in environment")
  | some manifest_dir =>
      let full_path := pathJoin manifest_dir (trim_start_matches '/' (relative_path path_str))
      match fs full_path with
      | some contents => Except.ok contents
      | none => Except.error (str "Failed to read include_str! file")

/-- `CommentAttributes::evaluate_include_str`: clean the expression text
(trim whitespace, trim quotes), dispatch on whether it mentions
`CARGO_MANIFEST_DIR`, and otherwise read it as a direct path (`panic!` on
read failure becomes `Except.error`). -/
def evaluate_include_str (fs : Line → Option Line) (env : Option Line)
    (path_str : Line) : Except Line Line :=
  let path_str := trim_matches (fun c => c = '"') (trim path_str)
  if containsSub path_str cargoManifestDir then
    evaluate_manifest_dir_path fs env path_str
  else
    match fs path_str with
    | some contents => Except.ok contents
    | none => Except.error (str "Failed to read include_str! file")

/-- The `Expr` value of a `#[doc = ...]` name-value attribute, as far as
`extract_doc_value` inspects it: a string literal, a non-string literal, a
macro call (path and stringified tokens), or any other expression. -/
inductive ExprVal where
  | litStr (s : Line)
  | litOther
  | macroCall (path : String) (tokens : Line)
  | otherExpr
deriving DecidableEq

/-- A `syn::Attribute`, as far as `from_attributes` inspects it: a `doc`
attribute in name-value form with its value, a `doc` attribute of another
meta shape (e.g. `#[doc(hidden)]`), or an attribute with another path. -/
inductive Attribute where
  | docNameValue (value : ExprVal)
  | docOtherMeta
  | nonDoc
deriving DecidableEq

/-- `CommentAttributes::extract_doc_value`: string literals are stored
trailing-trimmed, an `include_str` macro call is evaluated, everything
else yields `None`. -/
def extract_doc_value (fs : Line → Option Line) (env : Option Line) :
    ExprVal → Except Line (Option Line)
  | ExprVal.litStr s => Except.ok (some (truncate_to_trim_end s))
  | ExprVal.litOther => Except.ok none
  | ExprVal.macroCall path tokens =>
      if path = "include_str" then ( evaluate_include_str fs env tokens).map some
      else Except.ok none
  | ExprVal.otherExpr => Except.ok none

/-- The closure of the `filter_map` in `from_attributes`: non-`doc`
attributes and non-name-value `doc` attributes yield `None`, name-value
`doc` attributes go through `extract_doc_value`. -/
def attrFilterMap (fs : Line → Option Line) (env : Option Line) :
    Attribute → Except Line (Option Line)
  | Attribute.docNameValue v => extract_doc_value fs env v
  | Attribute.docOtherMeta => Except.ok none
  | Attribute.nonDoc => Except.ok none

/-- The `filter_map ... collect` of `from_attributes`, driven left to
right; the first abort (panic) stops the collection. -/
def collectDocs (fs : Line → Option Line) (env : Option Line) :
    List Attribute → Except Line (List Line)
  | [] => Except.ok []
  | a :: rest => do
      let v ← attrFilterMap fs env a
      let tail ← collectDocs fs env rest
      match v with
      | some line => Except.ok (line :: tail)
      | none => Except.ok tail

/-- The `min_indent` computation of `from_attributes`: minimum over the
non-empty collected lines of `s.len() - s.trim_start_matches(' ').len()`,
defaulting to 0. -/
def min_indent (docs : List Line) : Nat :=
  (((docs.filter (fun s => !s.isEmpty)).map
      (fun s => s.length - (s.dropWhile (fun c => c = ' ')).length)).min?).getD 0

/-- The stripping loop of `from_attributes`:
`for line in &mut docs { if !line.is_empty() { line.drain(..min_indent); } }`.
`drain(..n)` is modelled as `List.drop n`; the in-bounds/char-boundary
condition under which they agree (every non-empty line starts with at
least `min_indent` spaces) is proved below. -/
def stripMinIndent (docs : List Line) : List Line :=
  docs.map (fun line => if !line.isEmpty then line.drop (min_indent docs) else line)

/-- `CommentAttributes::from_attributes`: collect the doc values, then
strip the common indentation. -/
def from_attributes (fs : Line → Option Line) (env : Option Line)
    (attributes : List Attribute) : Except Line (List Line) := do
  let docs ← collectDocs fs env attributes
  Except.ok (stripMinIndent docs)

/-- `CommentAttributes::as_formatted_string`: join with a newline. -/
def as_formatted_string (docs : List Line) : Line :=
  match docs with
  | [] => []
  | d :: rest => d ++ (rest.map (fun l => '\n' :: l)).flatten

/-- A literal `#[doc = "..."]` attribute for the given line. -/
def mkDocAttr (l : Line) : Attribute :=
  Attribute.docNameValue (ExprVal.litStr l)

/-- Removal of one (possibly absent) leading path separator, as the C4
claim's words "trimming a single leading path separator" describe it. -/
def dropOneLeadingSlash : Line → Line
  | '/' :: rest => rest
  | s => s

/-- Resolution as the C4 claim words it, for comparison with
`evaluate_include_str`: with the marker present, strip the wrapper syntax
down to the relative fragment, trim a SINGLE leading path separator, read
the environment variable (fatal error when unset) and the file at the
join (fatal error when unreadable); without the marker, read the
quote-and-whitespace-stripped expression directly. -/
def evaluate_include_str_claim (fs : Line → Option Line) (env : Option Line)
    (path_str : Line) : Except Line Line :=
  let cleaned := trim_matches (fun c => c = '"') (trim path_str)
  if containsSub cleaned cargoManifestDir then
    match env with
    | none => Except.error (str "CARGO_MANIFEST_DIR not found in environment")
    | some manifest_dir =>
        match fs (pathJoin manifest_dir (dropOneLeadingSlash (relative_path cleaned))) with
        | some contents => Except.ok contents
        | none => Except.error (str "Failed to read include_str! file")
  else
    match fs cleaned with
    | some contents => Except.ok contents
    | none => Except.error (str "Failed to read include_str! file")

/-- The C4 claim amended at its one false point: identical to
`evaluate_include_str_claim` except that ALL leading path separators are
trimmed from the fragment, as `trim_start_matches('/')` does. -/
def evaluate_include_str_amended (fs : Line → Option Line) (env : Option Line)
    (path_str : Line) : Except Line Line :=
  let cleaned := trim_matches (fun c => c = '"') (trim path_str)
  if containsSub cleaned cargoManifestDir then
    match env with
    | none => Except.error (str "CARGO_MANIFEST_DIR not found in environment")
    | some manifest_dir =>
        match fs (pathJoin manifest_dir (trim_start_matches '/' (relative_path cleaned))) with
        | some contents => Except.ok contents
        | none => Except.error (str "Failed to read include_str! file")
  else
    match fs cleaned with
    | some contents => Except.ok contents
    | none => Except.error (str "Failed to read include_str! file")

/-- Filesystem of the C4 counterexample: only `/root/x` is readable. -/
def fsC4 : Line → Option Line :=
  fun p => if p = str "/root/x" then some (str "content") else none

/-- The C4 counterexample's include expression: its fragment `//x` starts
with two path separators. -/
def exprC4 : Line := str "concat!(env!(\"CARGO_MANIFEST_DIR\"), \"//x\")"

/-! ## Well-formed attribute chunks of the clause grammar

To state properties quantified over "valid attributes" of a clause, each
grammar attribute is given its token spelling (`attrToks`) and its effect
on the parameter under construction (`attrApply`), read off the
corresponding arm of the dispatch in `Parameter::parse`. -/

/-- One valid attribute of the clause grammar. -/
inductive Attr where
  | loc (k : ParameterIn)
  | deprecatedBare
  | deprecatedEq (b : Bool)
  | descr (s : String)
deriving DecidableEq

/-- The keyword spelling a location parses from. -/
def locName : ParameterIn → String
  | ParameterIn.Path => "path"
  | ParameterIn.Query => "query"
  | ParameterIn.Header => "header"
  | ParameterIn.Cookie => "cookie"

/-- The token spelling of one attribute (identifier spans fixed at 0;
the parser ignores spans except in the unknown-keyword error). -/
def attrToks : Attr → List Tok
  | Attr.loc k => [Tok.ident (locName k) 0]
  | Attr.deprecatedBare => [Tok.ident "deprecated" 0]
  | Attr.deprecatedEq b => [Tok.ident "deprecated" 0, Tok.eq, Tok.boolLit b]
  | Attr.descr s => [Tok.ident "description" 0, Tok.eq, Tok.litStr s]

/-- The effect of one attribute on the parameter under construction. -/
def attrApply : Attr → Parameter → Parameter
  | Attr.loc k, p => { p with parameter_in := k }
  | Attr.deprecatedBare, p => { p with deprecated := true }
  | Attr.deprecatedEq b, p => { p with deprecated := b }
  | Attr.descr s, p => { p with description := some s }

/-- Token spelling of a list of attributes, comma-free. -/
def attrsToks : List Attr → List Tok
  | [] => []
  | a :: rest => attrToks a ++ attrsToks rest

/-- Whether the stream starts with an identifier token. -/
def headIsIdent : List Tok → Bool
  | Tok.ident _ _ :: _ => true
  | _ => false

/-- The location keyword a token contributes: `some k` exactly for an
identifier token spelling one of the four location keywords. -/
def takeLoc : Tok → Option ParameterIn
  | Tok.ident name _ =>
      match name with
      | "path" => some ParameterIn.Path
      | "query" => some ParameterIn.Query
      | "header" => some ParameterIn.Header
      | "cookie" => some ParameterIn.Cookie
      | _ => none
  | _ => none

/-- The last location keyword occurring in a token stream, if any. -/
def lastLocKeyword : List Tok → Option ParameterIn
  | [] => none
  | t :: rest =>
      match lastLocKeyword rest with
      | some k => some k
      | none => takeLoc t

theorem from_str_locName (k : ParameterIn) :
    ParameterIn.from_str (locName k) = Except.ok k := by
  cases k <;> rfl

theorem parseAttrs_last (p : Parameter) (a : Attr) :
    parseAttrs p (attrToks a) = Except.ok (attrApply a p) := by
  cases a with
  | loc k =>
      cases k <;>
        simp [attrToks, attrApply, locName, parseAttrs, dispatchAttr, ParameterIn.from_str,
          parse_bool_or_true, consumeComma, peekComma]
  | deprecatedBare =>
      simp [attrToks, attrApply, parseAttrs, dispatchAttr, parse_bool_or_true, consumeComma,
        peekComma]
  | deprecatedEq b =>
      simp [attrToks, attrApply, parseAttrs, dispatchAttr, parse_bool_or_true, consumeComma,
        peekComma]
  | descr s =>
      simp [attrToks, attrApply, parseAttrs, dispatchAttr, parse_next_description, consumeComma,
        peekComma]

theorem parseAttrs_last_trailing_comma (p : Parameter) (a : Attr) :
    parseAttrs p (attrToks a ++ [Tok.comma]) = Except.ok (attrApply a p) := by
  cases a with
  | loc k =>
      cases k <;>
        simp [attrToks, attrApply, locName, parseAttrs, dispatchAttr, ParameterIn.from_str,
          parse_bool_or_true, consumeComma, peekComma]
  | deprecatedBare =>
      simp [attrToks, attrApply, parseAttrs, dispatchAttr, parse_bool_or_true, consumeComma,
        peekComma]
  | deprecatedEq b =>
      simp [attrToks, attrApply, parseAttrs, dispatchAttr, parse_bool_or_true, consumeComma,
        peekComma]
  | descr s =>
      simp [attrToks, attrApply, parseAttrs, dispatchAttr, parse_next_description, consumeComma,
        peekComma]

theorem parseAttrs_step (p : Parameter) (a : Attr) (rest : List Tok)
    (h : headIsIdent rest = true) :
    parseAttrs p (attrToks a ++ rest) = parseAttrs (attrApply a p) rest := by
  match rest, h with
  | Tok.ident n sp :: rest', _ =>
    cases a with
    | loc k =>
        cases k <;>
          simp [attrToks, attrApply, locName, parseAttrs, dispatchAttr, ParameterIn.from_str,
            parse_bool_or_true, consumeComma, peekComma]
    | deprecatedBare =>
        simp [attrToks, attrApply, parseAttrs, dispatchAttr, parse_bool_or_true, consumeComma,
          peekComma]
    | deprecatedEq b =>
        simp [attrToks, attrApply, parseAttrs, dispatchAttr, parse_bool_or_true, consumeComma,
          peekComma]
    | descr s =>
        simp [attrToks, attrApply, parseAttrs, dispatchAttr, parse_next_description, consumeComma,
          peekComma]

theorem headIsIdent_attrToks_append (a : Attr) (xs : List Tok) :
    headIsIdent (attrToks a ++ xs) = true := by
  cases a <;> rfl

theorem parse_name_comma (nm : String) (rest : List Tok) :
    Parameter.parse (Tok.litStr nm :: Tok.comma :: rest) =
      parseAttrs { Parameter.default with name := nm } rest := by
  simp [Parameter.parse, peekLitStr, peekEq]

theorem parse_name_type_comma (nm : String) (t : Type') (rest : List Tok) :
    Parameter.parse (Tok.litStr nm :: Tok.eq :: Tok.typeRef t :: Tok.comma :: rest) =
      parseAttrs { Parameter.default with name := nm, parameter_type := some t } rest := by
  simp [Parameter.parse, peekLitStr, peekEq, parse_next_type]

/-- The accepted keyword set of the attribute loop. -/
def keywordSet : List String :=
  ["path", "query", "header", "cookie", "deprecated", "description"]

theorem dispatchAttr_unknown (p : Parameter) (bad : String) (span : Nat) (rest : List Tok)
    (h : bad ∉ keywordSet) :
    dispatchAttr p bad span rest =
      Except.error (ParseError.err
        ("unexpected identifier: " ++ bad ++
          ", expected any of: path, query, header, cookie, deprecated, description")
        (some span)) := by
  simp only [keywordSet, List.mem_cons, List.mem_singleton, not_or] at h
  obtain ⟨h1, h2, h3, h4, h5, h6⟩ := h
  unfold dispatchAttr
  split <;> simp_all

theorem parseAttrs_unknown (p : Parameter) (bad : String) (span : Nat) (suffix : List Tok)
    (h : bad ∉ keywordSet) :
    parseAttrs p (Tok.ident bad span :: suffix) =
      Except.error (ParseError.err
        ("unexpected identifier: " ++ bad ++
          ", expected any of: path, query, header, cookie, deprecated, description")
        (some span)) := by
  rw [parseAttrs, dispatchAttr_unknown p bad span suffix h]

theorem parseAttrs_attrsToks_unknown (p : Parameter) (L : List Attr) (bad : String) (span : Nat)
    (suffix : List Tok) (h : bad ∉ keywordSet) :
    parseAttrs p (attrsToks L ++ Tok.ident bad span :: suffix) =
      Except.error (ParseError.err
        ("unexpected identifier: " ++ bad ++
          ", expected any of: path, query, header, cookie, deprecated, description")
        (some span)) := by
  induction L generalizing p with
  | nil => simpa using parseAttrs_unknown p bad span suffix h
  | cons a L ih =>
      have hhead : headIsIdent (attrsToks L ++ Tok.ident bad span :: suffix) = true := by
        cases L with
        | nil => rfl
        | cons a' L' => simpa [attrsToks, List.append_assoc] using
            headIsIdent_attrToks_append a' (attrsToks L' ++ Tok.ident bad span :: suffix)
      rw [attrsToks, List.append_assoc, parseAttrs_step _ _ _ hhead]
      exact ih _

theorem dispatchAttr_name {p : Parameter} {name : String} {span : Nat} {rest : List Tok}
    {p' : Parameter} {rest1 : List Tok}
    (h : dispatchAttr p name span rest = Except.ok (p', rest1)) : p'.name = p.name := by
  unfold dispatchAttr at h
  split at h <;>
    first
    | (split at h <;>
        first
        | (simp only [Except.ok.injEq, Prod.mk.injEq] at h
           obtain ⟨h1, -⟩ := h
           subst h1
           rfl)
        | simp at h)
    | simp at h

theorem parseAttrs_name {q : Parameter} {toks : List Tok} {p : Parameter}
    (h : parseAttrs q toks = Except.ok p) : p.name = q.name := by
  induction q, toks using parseAttrs.induct generalizing p with
  | case1 q name span rest p' rest1 hd hempty =>
      rw [parseAttrs, hd] at h
      simp only [hempty, if_pos, Except.ok.injEq] at h
      subst h
      exact dispatchAttr_name hd
  | case2 q name span rest p' rest1 hd hempty ih =>
      rw [parseAttrs, hd] at h
      simp only [hempty, if_neg, if_false] at h
      exact (ih h).trans (dispatchAttr_name hd)
  | case3 q name span rest e hd =>
      rw [parseAttrs, hd] at h
      simp at h
  | case4 q toks hshape =>
      rw [parseAttrs.eq_def] at h
      split at h
      · exact absurd rfl (by intro hc; exact hshape _ _ _ hc)
      · simp at h

/-- C1 (corrected), counterexample: the clause `"" , path` parses
successfully although its name literal is empty, so the parser does return
a `Parameter` whose `name` is the empty string. -/
theorem c1_empty_name_accepted :
    Parameter.parse [Tok.litStr "", Tok.comma, Tok.ident "path" 0] =
      Except.ok { name := "", parameter_in := ParameterIn.Path, deprecated := false,
                  description := none, parameter_type := none } ∧
    ({ name := "", parameter_in := ParameterIn.Path, deprecated := false,
       description := none, parameter_type := none } : Parameter).name = "" := by
  refine ⟨?_, rfl⟩
  simp [Parameter.parse, parseAttrs, dispatchAttr, ParameterIn.from_str, peekLitStr, peekEq,
    peekComma, consumeComma, Parameter.default, ParameterIn.default]

/-- C1 (amended): whenever `Parameter::parse` returns `Ok`, the input began
with a string-literal token and the resulting `name` is exactly that
literal's value — non-empty exactly when the literal is non-empty; the
parser itself never rejects an empty name. -/
theorem c1_name_is_leading_literal (toks : List Tok) (p : Parameter)
    (h : Parameter.parse toks = Except.ok p) :
    ∃ s rest, toks = Tok.litStr s :: rest ∧ p.name = s := by
  rcases toks with _ | ⟨t, rest0⟩
  · exact absurd h (by simp [Parameter.parse, peekLitStr])
  cases t
  case litStr s =>
    refine ⟨s, rest0, rfl, ?_⟩
    rcases rest0 with _ | ⟨t0, rest0'⟩
    · exact absurd h (by simp [Parameter.parse, peekLitStr, peekEq])
    cases t0
    case comma =>
      rw [parse_name_comma] at h
      simpa using parseAttrs_name h
    case eq =>
      rcases rest0' with _ | ⟨t1, rest1⟩
      · exact absurd h (by simp [Parameter.parse, peekLitStr, peekEq, parse_next_type])
      cases t1
      case typeRef tty =>
        rcases rest1 with _ | ⟨t2, rest2⟩
        · exact absurd h (by simp [Parameter.parse, peekLitStr, peekEq, parse_next_type])
        cases t2
        case comma =>
          rw [parse_name_type_comma] at h
          simpa using parseAttrs_name h
        all_goals
          exact absurd h (by simp [Parameter.parse, peekLitStr, peekEq, parse_next_type])
      all_goals
        exact absurd h (by simp [Parameter.parse, peekLitStr, peekEq, parse_next_type])
    all_goals
      exact absurd h (by simp [Parameter.parse, peekLitStr, peekEq])
  all_goals
    exact absurd h (by simp [Parameter.parse, peekLitStr])

/-- Witness for `c1_name_is_leading_literal` at the clause `"id", query`. -/
theorem c1_name_is_leading_literal_witness :
    ∃ s rest,
      ([Tok.litStr "id", Tok.comma, Tok.ident "query" 0] : List Tok) = Tok.litStr s :: rest ∧
      ({ name := "id", parameter_in := ParameterIn.Query, deprecated := false,
         description := none, parameter_type := none } : Parameter).name = s :=
  c1_name_is_leading_literal _ _
    (by simp [Parameter.parse, parseAttrs, dispatchAttr, ParameterIn.from_str, peekLitStr,
      peekEq, peekComma, consumeComma, Parameter.default, ParameterIn.default])

/-- C3: parsing the clause
`"id" = String, path, deprecated, description = "Users database id"`
succeeds with name `"id"`, location `Path`, deprecated `true`, the given
description, and the `String` type attached. -/
theorem c3_full_clause_example :
    Parameter.parse
      [Tok.litStr "id", Tok.eq,
       Tok.typeRef { ty := "String", is_array := false, is_option := false },
       Tok.comma, Tok.ident "path" 0, Tok.comma, Tok.ident "deprecated" 0, Tok.comma,
       Tok.ident "description" 0, Tok.eq, Tok.litStr "Users database id"] =
    Except.ok
      { name := "id", parameter_in := ParameterIn.Path, deprecated := true,
        description := some "Users database id",
        parameter_type := some { ty := "String", is_array := false, is_option := false } } := by
  simp [Parameter.parse, parseAttrs, dispatchAttr, parse_next_type, parse_bool_or_true,
    parse_next_description, ParameterIn.from_str, peekLitStr, peekEq, peekComma, consumeComma,
    Parameter.default, ParameterIn.default]

/-- C5: the attribute loop never requires a comma between two attributes —
any two valid attributes juxtaposed without a separating comma parse
successfully with both applied — and a single trailing comma after the
last attribute is consumed without error. -/
theorem c5_comma_optional :
    (∀ (nm : String) (a1 a2 : Attr),
        Parameter.parse (Tok.litStr nm :: Tok.comma :: (attrToks a1 ++ attrToks a2)) =
          Except.ok (attrApply a2 (attrApply a1 { Parameter.default with name := nm }))) ∧
    (∀ (nm : String) (a : Attr),
        Parameter.parse (Tok.litStr nm :: Tok.comma :: (attrToks a ++ [Tok.comma])) =
          Except.ok (attrApply a { Parameter.default with name := nm })) := by
  constructor
  · intro nm a1 a2
    rw [parse_name_comma, parseAttrs_step _ _ _ (by simpa using headIsIdent_attrToks_append a2 []),
      parseAttrs_last]
  · intro nm a
    rw [parse_name_comma, parseAttrs_last_trailing_comma]

/-- C7: a clause whose attribute list reaches an identifier outside the
accepted keyword set fails with a recoverable syntax error whose message
names the identifier and lists the keywords, located at that identifier's
span. -/
theorem c7_unknown_keyword_error (nm : String) (L : List Attr) (bad : String) (span : Nat)
    (suffix : List Tok) (h : bad ∉ keywordSet) :
    Parameter.parse (Tok.litStr nm :: Tok.comma :: (attrsToks L ++ Tok.ident bad span :: suffix)) =
      Except.error (ParseError.err
        ("unexpected identifier: " ++ bad ++
          ", expected any of: path, query, header, cookie, deprecated, description")
        (some span)) := by
  rw [parse_name_comma]
  exact parseAttrs_attrsToks_unknown _ L bad span suffix h

/-- Witness for `c7_unknown_keyword_error`: the clause `"id", unknown_attr`
fails naming `unknown_attr`. -/
theorem c7_unknown_keyword_error_witness :
    Parameter.parse
        (Tok.litStr "id" :: Tok.comma :: (attrsToks [] ++ Tok.ident "unknown_attr" 7 :: [])) =
      Except.error (ParseError.err
        ("unexpected identifier: " ++ "unknown_attr" ++
          ", expected any of: path, query, header, cookie, deprecated, description")
        (some 7)) :=
  c7_unknown_keyword_error "id" [] "unknown_attr" 7 [] (by simp [keywordSet])

/-- C8: `deprecated` with no value sets the flag to `true`,
`deprecated = b` sets it to the literal `b` (in particular `false`), and
the concrete clause `"id", path, deprecated = false` yields a
non-deprecated parameter. -/
theorem c8_deprecated_values :
    (∀ (p : Parameter) (span : Nat),
        parseAttrs p [Tok.ident "deprecated" span] = Except.ok { p with deprecated := true }) ∧
    (∀ (p : Parameter) (span : Nat) (b : Bool),
        parseAttrs p [Tok.ident "deprecated" span, Tok.eq, Tok.boolLit b] =
          Except.ok { p with deprecated := b }) ∧
    Parameter.parse [Tok.litStr "id", Tok.comma, Tok.ident "path" 0, Tok.comma,
        Tok.ident "deprecated" 0, Tok.eq, Tok.boolLit false] =
      Except.ok { name := "id", parameter_in := ParameterIn.Path, deprecated := false,
                  description := none, parameter_type := none } := by
  refine ⟨?_, ?_, ?_⟩
  · intro p span
    simp [parseAttrs, dispatchAttr, parse_bool_or_true, consumeComma, peekComma]
  · intro p span b
    simp [parseAttrs, dispatchAttr, parse_bool_or_true, consumeComma, peekComma]
  · simp [Parameter.parse, parseAttrs, dispatchAttr, parse_bool_or_true, ParameterIn.from_str,
      peekLitStr, peekEq, peekComma, consumeComma, Parameter.default, ParameterIn.default]

/-- C6: rendering a `Parameter` always emits construct-with-name, then
set-location, then set-deprecated (the default `false` when never set,
since the record's default flag is `false`); emits set-description iff a
description is present; and emits set-schema/set-required iff a type is
attached, the required flag being the negation of the type's option
flag. -/
theorem c6_to_tokens_shape (p : Parameter) :
    (p.to_tokens.take 3 =
      [RenderCall.new p.name, RenderCall.with_in p.parameter_in,
       RenderCall.with_deprecated p.deprecated]) ∧
    (∀ d, RenderCall.with_description d ∈ p.to_tokens ↔ p.description = some d) ∧
    (∀ a t, RenderCall.with_schema a t ∈ p.to_tokens ↔
      ∃ pt, p.parameter_type = some pt ∧ a = pt.is_array ∧ t = pt.ty) ∧
    (∀ r, RenderCall.with_required r ∈ p.to_tokens ↔
      ∃ pt, p.parameter_type = some pt ∧ r = (! pt.is_option)) ∧
    Parameter.default.deprecated = false := by
  obtain ⟨nm, pin, dep, desc, pty⟩ := p
  refine ⟨?_, ?_, ?_, ?_, rfl⟩ <;>
    cases desc <;> cases pty <;>
      simp [Parameter.to_tokens, eq_comm, and_comm]

theorem lastLoc_cons_none {t : Tok} (ht : takeLoc t = none) (xs : List Tok) :
    lastLocKeyword (t :: xs) = lastLocKeyword xs := by
  rw [lastLocKeyword]
  cases hx : lastLocKeyword xs
  · simp [ht]
  · simp

theorem lastLoc_append_none {cs : List Tok} (h : ∀ t ∈ cs, takeLoc t = none) (ys : List Tok) :
    lastLocKeyword (cs ++ ys) = lastLocKeyword ys := by
  induction cs with
  | nil => rfl
  | cons c cs ih =>
      rw [List.cons_append, lastLoc_cons_none (h c (by simp))]
      exact ih (fun t ht => h t (by simp [ht]))

theorem lastLoc_consumeComma (xs : List Tok) :
    lastLocKeyword (consumeComma xs) = lastLocKeyword xs := by
  unfold consumeComma
  split
  · rcases xs with _ | ⟨t, tail⟩
    · rfl
    · cases t <;> simp_all [peekComma]
      exact (lastLoc_cons_none (show takeLoc Tok.comma = none from rfl) tail).symm
  · rfl

theorem lastLoc_none_of_consumeComma_empty {xs : List Tok}
    (h : (consumeComma xs).isEmpty = true) : lastLocKeyword xs = none := by
  unfold consumeComma at h
  rcases xs with _ | ⟨t, tail⟩
  · rfl
  · cases t <;> simp_all [peekComma]
    subst h
    rfl

theorem parse_bool_or_true_consumed {toks : List Tok} {b : Bool} {rest : List Tok}
    (h : parse_bool_or_true toks = Except.ok (b, rest)) :
    ∃ consumed, toks = consumed ++ rest ∧ ∀ t ∈ consumed, takeLoc t = none := by
  unfold parse_bool_or_true at h
  split at h
  · simp only [Except.ok.injEq, Prod.mk.injEq] at h
    obtain ⟨rfl, rfl⟩ := h
    exact ⟨[Tok.eq, Tok.boolLit _], rfl, by simp [takeLoc]⟩
  · simp at h
  · simp only [Except.ok.injEq, Prod.mk.injEq] at h
    obtain ⟨rfl, rfl⟩ := h
    exact ⟨[], rfl, by simp⟩

theorem parse_next_description_consumed {toks : List Tok} {s : String} {rest : List Tok}
    (h : parse_next_description toks = Except.ok (s, rest)) :
    ∃ consumed, toks = consumed ++ rest ∧ ∀ t ∈ consumed, takeLoc t = none := by
  unfold parse_next_description at h
  split at h
  · simp only [Except.ok.injEq, Prod.mk.injEq] at h
    obtain ⟨rfl, rfl⟩ := h
    exact ⟨[Tok.eq, Tok.litStr _], rfl, by simp [takeLoc]⟩
  · simp at h
  · simp at h

theorem dispatchAttr_loc_spec {p : Parameter} {name : String} {span : Nat} {rest : List Tok}
    {p' : Parameter} {rest1 : List Tok}
    (h : dispatchAttr p name span rest = Except.ok (p', rest1)) :
    (∃ consumed, rest = consumed ++ rest1 ∧ ∀ t ∈ consumed, takeLoc t = none) ∧
    p'.parameter_in = (takeLoc (Tok.ident name span)).getD p.parameter_in := by
  unfold dispatchAttr at h
  split at h
  · rw [show ParameterIn.from_str "path" = Except.ok ParameterIn.Path from rfl] at h
    simp only [Except.ok.injEq, Prod.mk.injEq] at h
    obtain ⟨rfl, rfl⟩ := h
    exact ⟨⟨[], rfl, by simp⟩, rfl⟩
  · rw [show ParameterIn.from_str "query" = Except.ok ParameterIn.Query from rfl] at h
    simp only [Except.ok.injEq, Prod.mk.injEq] at h
    obtain ⟨rfl, rfl⟩ := h
    exact ⟨⟨[], rfl, by simp⟩, rfl⟩
  · rw [show ParameterIn.from_str "header" = Except.ok ParameterIn.Header from rfl] at h
    simp only [Except.ok.injEq, Prod.mk.injEq] at h
    obtain ⟨rfl, rfl⟩ := h
    exact ⟨⟨[], rfl, by simp⟩, rfl⟩
  · rw [show ParameterIn.from_str "cookie" = Except.ok ParameterIn.Cookie from rfl] at h
    simp only [Except.ok.injEq, Prod.mk.injEq] at h
    obtain ⟨rfl, rfl⟩ := h
    exact ⟨⟨[], rfl, by simp⟩, rfl⟩
  · split at h
    · rename_i b r heq
      simp only [Except.ok.injEq, Prod.mk.injEq] at h
      obtain ⟨rfl, rfl⟩ := h
      exact ⟨parse_bool_or_true_consumed heq, rfl⟩
    · simp at h
  · split at h
    · rename_i s r heq
      simp only [Except.ok.injEq, Prod.mk.injEq] at h
      obtain ⟨rfl, rfl⟩ := h
      exact ⟨parse_next_description_consumed heq, rfl⟩
    · simp at h
  · simp at h

theorem parseAttrs_parameter_in {q : Parameter} {toks : List Tok} {p : Parameter}
    (h : parseAttrs q toks = Except.ok p) :
    p.parameter_in = (lastLocKeyword toks).getD q.parameter_in := by
  induction q, toks using parseAttrs.induct generalizing p with
  | case1 q name span rest p' rest1 hd hempty =>
      rw [parseAttrs, hd] at h
      simp only [hempty, if_pos, Except.ok.injEq] at h
      subst h
      obtain ⟨⟨consumed, rfl, hnone⟩, hpin⟩ := dispatchAttr_loc_spec hd
      have h1 : lastLocKeyword rest1 = none := lastLoc_none_of_consumeComma_empty hempty
      rw [lastLocKeyword, lastLoc_append_none hnone, h1, hpin]
  | case2 q name span rest p' rest1 hd hempty ih =>
      rw [parseAttrs, hd] at h
      simp only [hempty, if_neg, if_false] at h
      have hih := ih h
      rw [lastLoc_consumeComma] at hih
      obtain ⟨⟨consumed, rfl, hnone⟩, hpin⟩ := dispatchAttr_loc_spec hd
      rw [lastLocKeyword, lastLoc_append_none hnone]
      cases hll : lastLocKeyword rest1
      · rw [hll] at hih
        simp only [Option.getD_none] at hih
        rw [hih, hpin]
      · rw [hll] at hih
        simpa using hih
  | case3 q name span rest e hd =>
      rw [parseAttrs, hd] at h
      simp at h
  | case4 q toks hshape =>
      rw [parseAttrs.eq_def] at h
      split at h
      · exact absurd rfl (by intro hc; exact hshape _ _ _ hc)
      · simp at h

/-- C9: a successfully parsed clause's location is the last location
keyword occurring in it, and the default `Path` when none occurs. -/
theorem c9_location_last_keyword_or_path (toks : List Tok) (p : Parameter)
    (h : Parameter.parse toks = Except.ok p) :
    p.parameter_in = (lastLocKeyword toks).getD ParameterIn.Path := by
  rcases toks with _ | ⟨t, rest0⟩
  · exact absurd h (by simp [Parameter.parse, peekLitStr])
  cases t
  case litStr s =>
    rcases rest0 with _ | ⟨t0, rest0'⟩
    · exact absurd h (by simp [Parameter.parse, peekLitStr, peekEq])
    cases t0
    case comma =>
      rw [parse_name_comma] at h
      rw [lastLoc_cons_none (show takeLoc (Tok.litStr s) = none from rfl),
        lastLoc_cons_none (show takeLoc Tok.comma = none from rfl)]
      exact parseAttrs_parameter_in h
    case eq =>
      rcases rest0' with _ | ⟨t1, rest1⟩
      · exact absurd h (by simp [Parameter.parse, peekLitStr, peekEq, parse_next_type])
      cases t1
      case typeRef tty =>
        rcases rest1 with _ | ⟨t2, rest2⟩
        · exact absurd h (by simp [Parameter.parse, peekLitStr, peekEq, parse_next_type])
        cases t2
        case comma =>
          rw [parse_name_type_comma] at h
          rw [lastLoc_cons_none (show takeLoc (Tok.litStr s) = none from rfl),
            lastLoc_cons_none (show takeLoc Tok.eq = none from rfl),
            lastLoc_cons_none (show takeLoc (Tok.typeRef tty) = none from rfl),
            lastLoc_cons_none (show takeLoc Tok.comma = none from rfl)]
          exact parseAttrs_parameter_in h
        all_goals
          exact absurd h (by simp [Parameter.parse, peekLitStr, peekEq, parse_next_type])
      all_goals
        exact absurd h (by simp [Parameter.parse, peekLitStr, peekEq, parse_next_type])
    all_goals
      exact absurd h (by simp [Parameter.parse, peekLitStr, peekEq])
  all_goals
    exact absurd h (by simp [Parameter.parse, peekLitStr])

/-- Witness for `c9_location_last_keyword_or_path` at the clause
`"id", query, header` (two location keywords; the last one wins). -/
theorem c9_location_last_keyword_or_path_witness :
    ({ name := "id", parameter_in := ParameterIn.Header, deprecated := false,
       description := none, parameter_type := none } : Parameter).parameter_in =
      (lastLocKeyword [Tok.litStr "id", Tok.comma, Tok.ident "query" 0, Tok.comma,
        Tok.ident "header" 1]).getD ParameterIn.Path :=
  c9_location_last_keyword_or_path _ _
    (by simp [Parameter.parse, parseAttrs, dispatchAttr, ParameterIn.from_str, peekLitStr,
      peekEq, peekComma, consumeComma, Parameter.default, ParameterIn.default])

theorem length_sub_dropWhile (p : Char → Bool) (s : Line) :
    s.length - (s.dropWhile p).length = (s.takeWhile p).length := by
  have h := congrArg List.length (List.takeWhile_append_dropWhile (p := p) (l := s))
  simp only [List.length_append] at h
  omega

theorem collectDocs_literals (fs : Line → Option Line) (env : Option Line) (lines : List Line) :
    collectDocs fs env (lines.map mkDocAttr) = Except.ok (lines.map truncate_to_trim_end) := by
  induction lines with
  | nil => rfl
  | cons l lines ih =>
      rw [List.map_cons, List.map_cons, collectDocs, ih]
      rfl

theorem min_indent_spec (docs : List Line) (w : Nat)
    (hub : ∀ l ∈ docs, l ≠ [] → w ≤ (l.takeWhile (fun c => c = ' ')).length)
    (hex : ∃ l ∈ docs, l ≠ [] ∧ (l.takeWhile (fun c => c = ' ')).length = w) :
    min_indent docs = w := by
  unfold min_indent
  obtain ⟨l0, hl0, hne0, hw0⟩ := hex
  have hmin :
      ((docs.filter fun s => !s.isEmpty).map
        (fun s => s.length - (s.dropWhile (fun c => c = ' ')).length)).min? = some w := by
    rw [List.min?_eq_some_iff']
    constructor
    · refine List.mem_map.mpr ⟨l0, List.mem_filter.mpr ⟨hl0, ?_⟩, ?_⟩
      · simpa [List.isEmpty_iff] using hne0
      · rw [length_sub_dropWhile]
        exact hw0
    · intro b hb
      obtain ⟨l, hlf, rfl⟩ := List.mem_map.mp hb
      obtain ⟨hl, hne⟩ := List.mem_filter.mp hlf
      rw [length_sub_dropWhile]
      exact hub l hl (by simpa [List.isEmpty_iff] using hne)
  rw [hmin]
  rfl

/-- C2: on literal doc lines whose trailing-trimmed values all start with
at least `w` spaces when non-empty, `w` being attained, `from_attributes`
removes exactly the first `w` characters of every non-empty line, leaves
empty lines unchanged and preserves the number and order of lines; when
every line is empty nothing is removed at all. -/
theorem c2_min_indent_stripping :
    (∀ (fs : Line → Option Line) (env : Option Line) (lines : List Line) (w : Nat),
      lines ≠ [] →
      (∀ l ∈ lines, truncate_to_trim_end l ≠ [] →
        w ≤ ((truncate_to_trim_end l).takeWhile (fun c => c = ' ')).length) →
      (∃ l ∈ lines, truncate_to_trim_end l ≠ [] ∧
        ((truncate_to_trim_end l).takeWhile (fun c => c = ' ')).length = w) →
      from_attributes fs env (lines.map mkDocAttr) =
        Except.ok ((lines.map truncate_to_trim_end).map
          (fun l => if l.isEmpty then l else l.drop w))) ∧
    (∀ (fs : Line → Option Line) (env : Option Line) (lines : List Line),
      (∀ l ∈ lines, truncate_to_trim_end l = []) →
      from_attributes fs env (lines.map mkDocAttr) =
        Except.ok (lines.map truncate_to_trim_end)) := by
  constructor
  · intro fs env lines w hne hub hex
    have hmi : min_indent (lines.map truncate_to_trim_end) = w := by
      apply min_indent_spec
      · intro l hl
        obtain ⟨l0, hl0, rfl⟩ := List.mem_map.mp hl
        exact hub l0 hl0
      · obtain ⟨l0, hl0, h1, h2⟩ := hex
        exact ⟨truncate_to_trim_end l0, List.mem_map.mpr ⟨l0, hl0, rfl⟩, h1, h2⟩
    unfold from_attributes
    rw [collectDocs_literals]
    show Except.ok (stripMinIndent (List.map truncate_to_trim_end lines)) = _
    unfold stripMinIndent
    rw [hmi]
    congr 1
    apply List.map_congr_left
    intro l hl
    by_cases hc : l.isEmpty <;> simp [hc]
  · intro fs env lines hall
    have hmi : min_indent (lines.map truncate_to_trim_end) = 0 := by
      unfold min_indent
      have hfil : (lines.map truncate_to_trim_end).filter (fun s => !s.isEmpty) = [] := by
        rw [List.filter_eq_nil_iff]
        intro l hl
        obtain ⟨l0, hl0, rfl⟩ := List.mem_map.mp hl
        simp [hall l0 hl0]
      rw [hfil]
      rfl
    unfold from_attributes
    rw [collectDocs_literals]
    show Except.ok (stripMinIndent (List.map truncate_to_trim_end lines)) = _
    unfold stripMinIndent
    rw [hmi]
    simp

/-- Witness for the first part of `c2_min_indent_stripping` on the lines
`"  a"`, `""`, `"   b  "` with common width 2. -/
theorem c2_min_indent_stripping_witness :
    from_attributes (fun _ => none) none
        ([str "  a", str "", str "   b  "].map mkDocAttr) =
      Except.ok (([str "  a", str "", str "   b  "].map truncate_to_trim_end).map
        (fun l => if l.isEmpty then l else l.drop 2)) :=
  c2_min_indent_stripping.1 _ _ _ 2 (by simp) (by decide) (by decide)

/-- C10: the indentation-stripping pass is in-bounds: the computed
`min_indent` never exceeds the length of any non-empty line, and the
characters it drains from such a line are all spaces, so `drain(..min_indent)`
is always within bounds and on character boundaries and never panics
(empty lines being skipped entirely). -/
theorem c10_min_indent_in_bounds (docs : List Line) (l : Line)
    (hl : l ∈ docs) (hne : l ≠ []) :
    min_indent docs ≤ l.length ∧
    l.take (min_indent docs) = List.replicate (min_indent docs) ' ' := by
  have hmem : (l.length - ((l.dropWhile (fun c => c = ' ')).length)) ∈
      ((docs.filter fun s => !s.isEmpty).map
        (fun s => s.length - (s.dropWhile (fun c => c = ' ')).length)) := by
    refine List.mem_map.mpr ⟨l, List.mem_filter.mpr ⟨hl, ?_⟩, rfl⟩
    simpa [List.isEmpty_iff] using hne
  have hle : min_indent docs ≤ (l.takeWhile (fun c => c = ' ')).length := by
    unfold min_indent
    cases hmin : ((docs.filter fun s => !s.isEmpty).map
        (fun s => s.length - (s.dropWhile (fun c => c = ' ')).length)).min? with
    | none =>
        rw [List.min?_eq_none_iff] at hmin
        rw [hmin] at hmem
        simp at hmem
    | some m =>
        obtain ⟨-, hall⟩ := List.min?_eq_some_iff'.mp hmin
        have := hall _ hmem
        rw [length_sub_dropWhile] at this
        simpa using this
  constructor
  · exact hle.trans (List.takeWhile_sublist _).length_le
  · have htake : l.take (min_indent docs) = (l.takeWhile (fun c => c = ' ')).take (min_indent docs) := by
      conv_lhs => rw [← List.takeWhile_append_dropWhile (p := fun c => c = ' ') (l := l)]
      exact List.take_append_of_le_length hle
    rw [htake, List.eq_replicate_iff]
    constructor
    · rw [List.length_take]
      exact Nat.min_eq_left hle
    · intro b hb
      have hbtw := List.mem_of_mem_take hb
      have := List.mem_takeWhile_imp hbtw
      simpa using this

/-- Witness for `c10_min_indent_in_bounds` on the lines `"  a"`, `""`. -/
theorem c10_min_indent_in_bounds_witness :
    min_indent [str "  a", str ""] ≤ (str "  a").length ∧
    (str "  a").take (min_indent [str "  a", str ""]) =
      List.replicate (min_indent [str "  a", str ""]) ' ' :=
  c10_min_indent_in_bounds _ _ (by decide) (by decide)

/-- C4 (corrected), counterexample: on the include expression with
fragment `//x`, the code (`trim_start_matches('/')`) removes both leading
separators and reads `<root>/x`, while the claim's words remove a single
separator and would read the join of the root with `/x`; with only
`/root/x` on the filesystem the two resolvers disagree. -/
theorem c4_single_separator_counterexample :
    evaluate_include_str fsC4 (some (str "/root")) exprC4 = Except.ok (str "content") ∧
    evaluate_include_str_claim fsC4 (some (str "/root")) exprC4 =
      Except.error (str "Failed to read include_str! file") := by
  constructor <;> rfl

/-- C4 (amended): resolution behaves exactly as the claim describes once
"a single leading path separator" is read as "all leading path
separators": marker present → fatal error when the environment variable
is unset, otherwise the file at the join of the variable's value with the
wrapper-stripped, separator-trimmed fragment is read, fatally erroring
when unreadable; marker absent → the quote-and-whitespace-stripped
expression is read directly, fatally erroring when unreadable. -/
theorem c4_resolution_matches_amended_claim :
    ∀ (fs : Line → Option Line) (env : Option Line) (path_str : Line),
      evaluate_include_str fs env path_str = evaluate_include_str_amended fs env path_str := by
  intro fs env path_str
  unfold evaluate_include_str evaluate_include_str_amended evaluate_manifest_dir_path
  rfl
